import Mathlib

/-!
Verification of the PlayGuard HTML5 SDK core against its specification.

The development shallowly embeds the SDK's three core pieces:
  * the WebSocket transport (`src/WSClient.ts`): reconnect state machine and
    newline-delimited JSON framing;
  * the command dispatcher (`PlayGuardSDK.handleCommand` / `respond`);
  * the tap router (`PlayGuardSDK.onPointerDown`, dual DOM/canvas strategy)
    and the synthetic tap injector (`tapElement`).

External collaborators (the platform hit-test primitive, JSON parsing of a
single line, handler callbacks) are abstracted as parameters; machine
numbers are modelled as exact rationals.
-/

namespace PlayGuard

/-! ## JSON-like values for command data payloads -/

/-- JSON-like value, the shape of `data` payloads built by the dispatcher. -/
inductive JVal where
  | null
  | str (s : String)
  | num (q : ℚ)
  | bool (b : Bool)
  | arr (xs : List JVal)
  | obj (fields : List (String × JVal))

/-- Position in viewport CSS pixels, as returned by an element's
position getter (`{x, y}`). -/
structure Pos where
  x : ℚ
  y : ℚ
deriving DecidableEq

/-! ## Transport: WSClient (src/WSClient.ts)

The socket handle is modelled by its ready state; `timerSet` models whether
`reconnectTimer` currently holds a pending timeout. -/

/-- Ready state of the underlying browser socket. -/
inductive SockState where
  | connecting
  | opened
deriving DecidableEq

/-- State of a `WSClient`: socket handle (with its ready state), pending
reconnect timer, `connected` flag and terminal `destroyed` flag. -/
structure WS where
  ws : Option SockState
  timerSet : Bool
  connected : Bool
  destroyed : Bool
deriving DecidableEq

/-- Initial `WSClient` state right after construction. -/
def WS.init : WS := ⟨none, false, false, false⟩

/-- Embedding of the private `_connect`: returns immediately when destroyed,
otherwise allocates a fresh (connecting) socket. -/
def WS.connectRaw (s : WS) : WS :=
  if s.destroyed then s else { s with ws := some .connecting }

/-- Embedding of `connect()`: no-op when a socket already exists or the
client is destroyed. -/
def WS.connect (s : WS) : WS :=
  if s.ws.isSome || s.destroyed then s else s.connectRaw

/-- Embedding of the `onopen` callback: marks the client connected. The
callback only fires on a live connecting socket. -/
def WS.onOpen (s : WS) : WS :=
  if s.ws = some .connecting then { s with ws := some .opened, connected := true }
  else s

/-- Embedding of the `onclose` callback: marks disconnected, drops the
socket, and — unless destroyed — schedules one reconnect timer. -/
def WS.onClose (s : WS) : WS :=
  let s' : WS := { s with connected := false, ws := none }
  if s.destroyed then s' else { s' with timerSet := true }

/-- Firing of the reconnect timer set in `onclose`: clears the pending timer
and runs `_connect`. Nothing happens when no timer is pending. -/
def WS.timerFire (s : WS) : WS :=
  if s.timerSet then WS.connectRaw { s with timerSet := false } else s

/-- Embedding of `destroy()`: sets the terminal flag, cancels any pending
reconnect timer, closes and drops the socket, clears `connected`. -/
def WS.destroy (s : WS) : WS :=
  { s with destroyed := true, timerSet := false, ws := none, connected := false }

/-- Embedding of `send(response)`: writes the serialized message followed by
a newline iff the socket exists and is open; otherwise nothing is written.
The result is the text written to the socket, if any. -/
def WS.send (s : WS) (msg : String) : Option String :=
  if s.ws = some .opened then some (msg ++ "\n") else none

/-- The externally triggerable transitions of a `WSClient` after
construction (the browser drives `onOpen`/`onClose`/`timerFire`). -/
inductive WSAction where
  | connect
  | onOpen
  | onClose
  | timerFire
  | destroy
deriving DecidableEq

/-- One transition of the `WSClient` state machine. -/
def WS.step (s : WS) : WSAction → WS
  | .connect => s.connect
  | .onOpen => s.onOpen
  | .onClose => s.onClose
  | .timerFire => s.timerFire
  | .destroy => s.destroy

/-- Run a sequence of transitions from a state. -/
def WS.run (s : WS) (acts : List WSAction) : WS :=
  acts.foldl WS.step s

/-- Terminal configuration reached by `destroy()`: destroyed, no pending
timer, no socket, not connected. -/
def WS.Dead (s : WS) : Prop :=
  s.destroyed = true ∧ s.timerSet = false ∧ s.ws = none ∧ s.connected = false

theorem WS.dead_destroy (s : WS) : (s.destroy).Dead := by
  simp [WS.destroy, WS.Dead]

theorem WS.dead_step {s : WS} (h : s.Dead) (a : WSAction) : (s.step a).Dead := by
  obtain ⟨h1, h2, h3, h4⟩ := h
  cases a <;>
    simp [WS.step, WS.connect, WS.connectRaw, WS.onOpen, WS.onClose,
      WS.timerFire, WS.destroy, WS.Dead, h1, h2, h3, h4]

theorem WS.dead_run {s : WS} (h : s.Dead) (acts : List WSAction) :
    (s.run acts).Dead := by
  induction acts generalizing s with
  | nil => exact h
  | cons a rest ih => exact ih (WS.dead_step h a)

/-! ## Transport: newline-delimited framing (`onmessage`)

Text is modelled as a list of characters so every definition evaluates in
the kernel (the built-in `String.splitOn`/`String.trim` do not reduce
there). A line of the frame is a `List Char`. -/

/-- Embedding of `String(event.data).split(String.fromCharCode(10))`: split a frame on every
newline character; consecutive newlines yield empty lines and a trailing
newline yields a trailing empty line, as in the source platform. -/
def splitOnNl : List Char → List (List Char)
  | [] => [[]]
  | c :: rest =>
    if c = '\n' then [] :: splitOnNl rest
    else
      match splitOnNl rest with
      | l :: ls => (c :: l) :: ls
      | [] => [[c]]

/-- Embedding of the blank-line guard `if (!line.trim()) continue`: the
trimmed line is empty exactly when the line is all whitespace. -/
def isBlankLine (l : List Char) : Bool := l.all Char.isWhitespace

/-- Embedding of the body of the `onmessage` loop over the already-split
lines of one raw frame: a blank line is skipped, a line that parses is
delivered (in order) to the message handler, a line that fails to parse is
dropped with a diagnostic. `parse` abstracts `JSON.parse` on one line. -/
def processLines {α : Type} (parse : List Char → Option α) : List (List Char) → List α
  | [] => []
  | line :: rest =>
    if isBlankLine line then processLines parse rest
    else
      match parse line with
      | some msg => msg :: processLines parse rest
      | none => processLines parse rest

/-- Embedding of the `onmessage` callback on one raw text frame: split the
frame on newline boundaries, then process each line independently. -/
def handleFrame {α : Type} (parse : List Char → Option α) (data : List Char) : List α :=
  processLines parse (splitOnNl data)

theorem processLines_eq_filterMap {α : Type} (parse : List Char → Option α)
    (lines : List (List Char)) :
    processLines parse lines =
      (lines.filter (fun l => !isBlankLine l)).filterMap parse := by
  induction lines with
  | nil => rfl
  | cons line rest ih =>
    by_cases h : isBlankLine line
    · simp [processLines, h, ih]
    · cases hp : parse line <;>
        simp [processLines, h, hp, ih, List.filter_cons, List.filterMap_cons]

/-! ## Dispatcher: registry environment and `handleCommand`

Handler callbacks are modelled as follows.  A property getter entry holds
the outcome of calling the getter during this dispatch: `Except.ok v`
where `v` is the stringification `String(getter())` of the returned
primitive, or `Except.error e` where `e` is the stringification `String(e)`
of a thrown exception.  Action and command handlers are functions from
their (string) arguments to an `Except` whose error component is again the
stringified thrown/rejected value — this covers both synchronous throws
and asynchronous rejections, which the source treats identically via
`try/await/catch`.  An element's position getter is modelled by the value
it returns during this dispatch (`Option Pos`), total as declared by its
interface `() => \x7bx, y\x7d | null`.  The platform node type is abstract. -/

/-- The parameter bag of an inbound command (`parameters?: Record`): each
field the dispatcher reads, each possibly absent. -/
structure Params where
  name : Option String
  args : Option (List String)
  param : Option String
  path : Option String

/-- Inbound command message `{type: "command", id, command, parameters?}`. -/
structure Cmd where
  id : String
  command : String
  parameters : Option Params

/-- Outbound response `{type: "response", id, command, success, data?, error?}`;
an absent optional field is `none`. -/
structure Response where
  id : String
  command : String
  success : Bool
  data : Option JVal
  error : Option String

/-- Embedding of `PlayGuardSDK.respond`: builds the response, including the
`data` field only when a data argument was supplied and the `error` field
only when an error argument was supplied. -/
def respond (id command : String) (success : Bool)
    (data : Option JVal) (error : Option String) : Response :=
  ⟨id, command, success, data, error⟩

/-- Platform geometry collaborators: the hit-test primitive
`document.elementFromPoint`, the opaque-surface test
`node.tagName === "CANVAS"`, and DOM containment `a.contains(b)`. -/
structure DomEnv (Node : Type) where
  elementFromPoint : ℚ → ℚ → Option Node
  isCanvas : Node → Bool
  contains : Node → Node → Bool

/-- Registry contents and collaborator behaviour visible to one dispatch:
the four registration maps (as association lists in insertion order) and
the platform geometry. -/
structure Env (Node : Type) where
  properties : List (String × Except String String)
  actions : List (String × (List String → Except String Unit))
  commands : List (String × (String → Except String JVal))
  elements : List (String × Option Pos)
  dom : DomEnv Node

/-- One synthetic event dispatched by `target.dispatchEvent(...)` during
`tapElement`: its target node, event kind, and the option bag
`{bubbles: true, clientX, clientY}`. -/
structure Dispatched (Node : Type) where
  target : Node
  kind : String
  bubbles : Bool
  clientX : ℚ
  clientY : ℚ

/-- Embedding of `map.get(k)` where the key may be `undefined`
(`parameters?.name` and friends): a missing key finds nothing. -/
def optLookup {β : Type} (k : Option String) (m : List (String × β)) : Option β :=
  match k with
  | none => none
  | some n => m.lookup n

/-- Stringification of a possibly-undefined name as it appears inside the
source's template-literal diagnostics. -/
def showName (k : Option String) : String :=
  match k with
  | some n => n
  | none => "undefined"

/-- The `parameters?.name` read. -/
def paramsName (cmd : Cmd) : Option String := cmd.parameters.bind Params.name

/-- The action argument list `const { args = [] } = parameters || {}`. -/
def paramsArgs (cmd : Cmd) : List String :=
  (cmd.parameters.bind Params.args).getD []

/-- The command argument `const { param = "" } = parameters || {}`. -/
def paramsParam (cmd : Cmd) : String :=
  (cmd.parameters.bind Params.param).getD ""

/-- The `parameters?.path` read of `tapElement`. -/
def paramsPath (cmd : Cmd) : Option String := cmd.parameters.bind Params.path

/-- One `getUIElements` result entry for a registered element: its name
(also used as `path`), fixed `type`/`active` fields, and position with the
`{x:0, y:0}` substitution when the getter returned null, extended by `z: 0`. -/
def uiElementEntry (e : String × Option Pos) : JVal :=
  .obj [("name", .str e.1), ("path", .str e.1), ("type", .str "HTML5Element"),
        ("active", .bool true),
        ("position", .obj [("x", .num (e.2.getD ⟨0, 0⟩).x),
                           ("y", .num (e.2.getD ⟨0, 0⟩).y), ("z", .num 0)])]

/-- Embedding of `PlayGuardSDK.handleCommand`: maps one inbound command to
its single response plus the synthetic events dispatched on the way (empty
for every command except a successful `tapElement` with a hit-tested
target).  Diagnostic messages drop the source's decorative quote marks
around interpolated names. -/
def handleCommand {Node : Type} (env : Env Node) (cmd : Cmd) :
    Response × List (Dispatched Node) :=
  let id := cmd.id
  let command := cmd.command
  if command = "ping" then
    (respond id command true (some (.str "pong")) none, [])
  else if command = "listCustomProperties" then
    (respond id command true
      (some (.obj [("properties", .arr (env.properties.map (fun e => .str e.1)))])) none, [])
  else if command = "listCustomActions" then
    (respond id command true
      (some (.obj [("actions", .arr (env.actions.map (fun e => .str e.1)))])) none, [])
  else if command = "listCustomCommands" then
    (respond id command true
      (some (.obj [("commands", .arr (env.commands.map (fun e => .str e.1)))])) none, [])
  else if command = "getCustomProperty" then
    match optLookup (paramsName cmd) env.properties with
    | none =>
      (respond id command false none
        (some ("Property " ++ showName (paramsName cmd) ++ " not found")), [])
    | some (.ok v) =>
      (respond id command true (some (.obj [("value", .str v)])) none, [])
    | some (.error e) => (respond id command false none (some e), [])
  else if command = "executeCustomAction" then
    match optLookup (paramsName cmd) env.actions with
    | none =>
      (respond id command false none
        (some ("Action " ++ showName (paramsName cmd) ++ " not found")), [])
    | some fn =>
      match fn (paramsArgs cmd) with
      | .ok _ => (respond id command true none none, [])
      | .error e => (respond id command false none (some e), [])
  else if command = "executeCustomCommand" then
    match optLookup (paramsName cmd) env.commands with
    | none =>
      (respond id command false none
        (some ("Command " ++ showName (paramsName cmd) ++ " not found")), [])
    | some fn =>
      match fn (paramsParam cmd) with
      | .ok r => (respond id command true (some r) none, [])
      | .error e => (respond id command false none (some e), [])
  else if command = "getUIElements" then
    (respond id command true
      (some (.obj [("elements", .arr (env.elements.map uiElementEntry))])) none, [])
  else if command = "tapElement" then
    match optLookup (paramsPath cmd) env.elements with
    | none =>
      (respond id command false none
        (some ("Element " ++ showName (paramsPath cmd) ++ " not registered")), [])
    | some none =>
      (respond id command false none
        (some ("Element " ++ showName (paramsPath cmd) ++ " returned null position")), [])
    | some (some p) =>
      match env.dom.elementFromPoint p.x p.y with
      | none => (respond id command true none none, [])
      | some t =>
        (respond id command true none none,
          [⟨t, "pointerdown", true, p.x, p.y⟩, ⟨t, "pointerup", true, p.x, p.y⟩,
           ⟨t, "click", true, p.x, p.y⟩])
  else
    (respond id command false none (some ("Unknown command: " ++ command)), [])

/-- Response discipline required of the dispatcher: the response echoes the
request's `id` and `command`; on success the `error` field is absent, on
failure the `data` field is absent — so `data` is present only on success,
`error` only on failure, and never both in one response. -/
def RespDiscipline (cmd : Cmd) (r : Response) : Prop :=
  r.id = cmd.id ∧ r.command = cmd.command
    ∧ (r.success = true ∧ r.error = none ∨ r.success = false ∧ r.data = none)

/-- Claim C1: for every inbound command, the dispatcher sends exactly one
response (structurally, `handleCommand` yields one `Response`); that
response echoes the request's `id` and `command`, the `data` field can be
present only when `success` is true, the `error` field can be present only
when `success` is false, and the two fields are never both present. -/
theorem handleCommand_response_discipline {Node : Type} (env : Env Node) (cmd : Cmd) :
    RespDiscipline cmd (handleCommand env cmd).1 := by
  unfold handleCommand
  by_cases h1 : cmd.command = "ping"
  · simp [h1, respond, RespDiscipline]
  by_cases h2 : cmd.command = "listCustomProperties"
  · simp [h1, h2, respond, RespDiscipline]
  by_cases h3 : cmd.command = "listCustomActions"
  · simp [h1, h2, h3, respond, RespDiscipline]
  by_cases h4 : cmd.command = "listCustomCommands"
  · simp [h1, h2, h3, h4, respond, RespDiscipline]
  by_cases h5 : cmd.command = "getCustomProperty"
  · simp only [if_neg h1, if_neg h2, if_neg h3, if_neg h4, if_pos h5]
    rcases hl : optLookup (paramsName cmd) env.properties with _ | (e | v) <;>
      simp [hl, respond, RespDiscipline]
  by_cases h6 : cmd.command = "executeCustomAction"
  · simp only [if_neg h1, if_neg h2, if_neg h3, if_neg h4, if_neg h5, if_pos h6]
    rcases hl : optLookup (paramsName cmd) env.actions with _ | fn
    · simp [hl, respond, RespDiscipline]
    · rcases hfn : fn (paramsArgs cmd) with e | u <;>
        simp [hl, hfn, respond, RespDiscipline]
  by_cases h7 : cmd.command = "executeCustomCommand"
  · simp only [if_neg h1, if_neg h2, if_neg h3, if_neg h4, if_neg h5, if_neg h6, if_pos h7]
    rcases hl : optLookup (paramsName cmd) env.commands with _ | fn
    · simp [hl, respond, RespDiscipline]
    · rcases hfn : fn (paramsParam cmd) with e | r <;>
        simp [hl, hfn, respond, RespDiscipline]
  by_cases h8 : cmd.command = "getUIElements"
  · simp [h1, h2, h3, h4, h5, h6, h7, h8, respond, RespDiscipline]
  by_cases h9 : cmd.command = "tapElement"
  · simp only [if_neg h1, if_neg h2, if_neg h3, if_neg h4, if_neg h5, if_neg h6, if_neg h7,
      if_neg h8, if_pos h9]
    rcases hl : optLookup (paramsPath cmd) env.elements with _ | (_ | p)
    · simp [hl, respond, RespDiscipline]
    · simp [hl, respond, RespDiscipline]
    · rcases ht : env.dom.elementFromPoint p.x p.y with _ | t <;>
        simp [hl, ht, respond, RespDiscipline]
  simp [h1, h2, h3, h4, h5, h6, h7, h8, h9, respond, RespDiscipline]

/-- Claim C2: for every behaviour of the registered handlers, a handler
outcome that is a thrown exception or asynchronous rejection is caught by
the dispatcher and converted to a failure response carrying the stringified
error; the dispatcher still returns exactly one response (it is a total
function to a single `Response`), so no exception escapes it. -/
theorem handleCommand_catches_handler_errors {Node : Type} (env : Env Node)
    (cmd : Cmd) (nm e : String) :
    (cmd.command = "getCustomProperty" → paramsName cmd = some nm →
      env.properties.lookup nm = some (.error e) →
      handleCommand env cmd = (respond cmd.id cmd.command false none (some e), []))
    ∧ (∀ fn, cmd.command = "executeCustomAction" → paramsName cmd = some nm →
        env.actions.lookup nm = some fn → fn (paramsArgs cmd) = .error e →
        handleCommand env cmd = (respond cmd.id cmd.command false none (some e), []))
    ∧ (∀ fn, cmd.command = "executeCustomCommand" → paramsName cmd = some nm →
        env.commands.lookup nm = some fn → fn (paramsParam cmd) = .error e →
        handleCommand env cmd = (respond cmd.id cmd.command false none (some e), [])) := by
  refine ⟨?_, ?_, ?_⟩
  · intro hc hn hl
    simp [handleCommand, hc, optLookup, hn, hl]
  · intro fn hc hn hl hfn
    simp [handleCommand, hc, optLookup, hn, hl, hfn]
  · intro fn hc hn hl hfn
    simp [handleCommand, hc, optLookup, hn, hl, hfn]

/-- Concrete registry used by the dispatcher witnesses: a property getter
that throws, an action handler that rejects, a command handler that
throws, one live element, one element whose getter returns null, and one
element whose position no node occupies; the platform resolves the point
(5, 6) to node 0 and every other point to nothing. -/
def envW : Env ℕ where
  properties := [("p", .error "boom")]
  actions := [("a", fun _ => .error "crash")]
  commands := [("c", fun _ => .error "fail")]
  elements := [("hero", some ⟨5, 6⟩), ("ghost", none), ("limbo", some ⟨7, 8⟩)]
  dom :=
    { elementFromPoint := fun x y => if x = 5 then (if y = 6 then some 0 else none) else none
      isCanvas := fun _ => false
      contains := fun _ _ => false }

/-- Witness for C2: each of the three throwing handlers of `envW` produces
the failure response carrying its stringified error. -/
theorem handleCommand_catches_handler_errors_witness :
    handleCommand envW ⟨"i1", "getCustomProperty", some ⟨some "p", none, none, none⟩⟩
      = (respond "i1" "getCustomProperty" false none (some "boom"), [])
    ∧ handleCommand envW ⟨"i2", "executeCustomAction", some ⟨some "a", none, none, none⟩⟩
      = (respond "i2" "executeCustomAction" false none (some "crash"), [])
    ∧ handleCommand envW ⟨"i3", "executeCustomCommand", some ⟨some "c", none, none, none⟩⟩
      = (respond "i3" "executeCustomCommand" false none (some "fail"), []) :=
  ⟨(handleCommand_catches_handler_errors envW
      ⟨"i1", "getCustomProperty", some ⟨some "p", none, none, none⟩⟩ "p" "boom").1
      rfl rfl rfl,
   (handleCommand_catches_handler_errors envW
      ⟨"i2", "executeCustomAction", some ⟨some "a", none, none, none⟩⟩ "a" "crash").2.1
      _ rfl rfl rfl rfl,
   (handleCommand_catches_handler_errors envW
      ⟨"i3", "executeCustomCommand", some ⟨some "c", none, none, none⟩⟩ "c" "fail").2.2
      _ rfl rfl rfl rfl⟩

/-- Claim C7: `getUIElements` never fails — for every set of registered
elements it responds with success and no error, dispatching nothing, and
its data lists exactly one entry per registered element (in registration
order) carrying the element's name and its current position, with
`{x:0, y:0}` substituted for every element whose getter currently returns
null. -/
theorem getUIElements_total {Node : Type} (env : Env Node) (cmd : Cmd)
    (h : cmd.command = "getUIElements") :
    (handleCommand env cmd).1.success = true
    ∧ (handleCommand env cmd).1.error = none
    ∧ (handleCommand env cmd).2 = []
    ∧ ∃ entries : List JVal,
        (handleCommand env cmd).1.data = some (.obj [("elements", .arr entries)])
        ∧ entries.length = env.elements.length
        ∧ ∀ i (hi : i < env.elements.length) (hi' : i < entries.length),
            entries.get ⟨i, hi'⟩ =
              .obj [("name", .str (env.elements.get ⟨i, hi⟩).1),
                    ("path", .str (env.elements.get ⟨i, hi⟩).1),
                    ("type", .str "HTML5Element"), ("active", .bool true),
                    ("position",
                      .obj [("x", .num ((env.elements.get ⟨i, hi⟩).2.getD ⟨0, 0⟩).x),
                            ("y", .num ((env.elements.get ⟨i, hi⟩).2.getD ⟨0, 0⟩).y),
                            ("z", .num 0)])] := by
  refine ⟨by simp [handleCommand, h, respond], by simp [handleCommand, h, respond],
    by simp [handleCommand, h, respond],
    env.elements.map uiElementEntry, by simp [handleCommand, h, respond], by simp, ?_⟩
  intro i hi hi'
  simp [uiElementEntry]

/-- Witness for C7: on the concrete registry `envW` (a live element, a
null-position element and an unoccupied-position element), `getUIElements`
succeeds with the three expected entries, the null position replaced by
`{x:0, y:0}`. -/
theorem getUIElements_total_witness :
    (handleCommand envW ⟨"i4", "getUIElements", none⟩).1.data =
      some (.obj [("elements", .arr
        [.obj [("name", .str "hero"), ("path", .str "hero"), ("type", .str "HTML5Element"),
               ("active", .bool true),
               ("position", .obj [("x", .num 5), ("y", .num 6), ("z", .num 0)])],
         .obj [("name", .str "ghost"), ("path", .str "ghost"), ("type", .str "HTML5Element"),
               ("active", .bool true),
               ("position", .obj [("x", .num 0), ("y", .num 0), ("z", .num 0)])],
         .obj [("name", .str "limbo"), ("path", .str "limbo"), ("type", .str "HTML5Element"),
               ("active", .bool true),
               ("position", .obj [("x", .num 7), ("y", .num 8), ("z", .num 0)])]])])
    ∧ ((handleCommand envW ⟨"i4", "getUIElements", none⟩).1.success = true
        ∧ (handleCommand envW ⟨"i4", "getUIElements", none⟩).1.error = none
        ∧ (handleCommand envW ⟨"i4", "getUIElements", none⟩).2 = []
        ∧ ∃ entries : List JVal,
            (handleCommand envW ⟨"i4", "getUIElements", none⟩).1.data =
              some (.obj [("elements", .arr entries)])
            ∧ entries.length = envW.elements.length
            ∧ ∀ i (hi : i < envW.elements.length) (hi' : i < entries.length),
                entries.get ⟨i, hi'⟩ =
                  .obj [("name", .str (envW.elements.get ⟨i, hi⟩).1),
                        ("path", .str (envW.elements.get ⟨i, hi⟩).1),
                        ("type", .str "HTML5Element"), ("active", .bool true),
                        ("position",
                          .obj [("x", .num ((envW.elements.get ⟨i, hi⟩).2.getD ⟨0, 0⟩).x),
                                ("y", .num ((envW.elements.get ⟨i, hi⟩).2.getD ⟨0, 0⟩).y),
                                ("z", .num 0)])]) :=
  ⟨rfl, getUIElements_total envW ⟨"i4", "getUIElements", none⟩ rfl⟩

/-- Claim C8: `tapElement` responds failure when the named element is not
registered; responds failure and dispatches no synthetic event when the
registered element's getter currently returns null; and when the position
is non-null and a node occupies it, responds success after dispatching to
that node, in order, a pointer-down, a pointer-up and a click, each
carrying the resolved coordinates and configured to bubble. -/
theorem tapElement_semantics {Node : Type} (env : Env Node) (cmd : Cmd)
    (h : cmd.command = "tapElement") :
    (optLookup (paramsPath cmd) env.elements = none →
      handleCommand env cmd =
        (respond cmd.id cmd.command false none
          (some ("Element " ++ showName (paramsPath cmd) ++ " not registered")), []))
    ∧ (optLookup (paramsPath cmd) env.elements = some none →
      handleCommand env cmd =
        (respond cmd.id cmd.command false none
          (some ("Element " ++ showName (paramsPath cmd) ++ " returned null position")), []))
    ∧ (∀ p t, optLookup (paramsPath cmd) env.elements = some (some p) →
        env.dom.elementFromPoint p.x p.y = some t →
        handleCommand env cmd =
          (respond cmd.id cmd.command true none none,
            [⟨t, "pointerdown", true, p.x, p.y⟩, ⟨t, "pointerup", true, p.x, p.y⟩,
             ⟨t, "click", true, p.x, p.y⟩])) := by
  refine ⟨fun hl => ?_, fun hl => ?_, fun p t hl ht => ?_⟩ <;>
    simp [handleCommand, h, hl]
  simp [ht]

/-- Witness for C8: on `envW`, tapping the unregistered name fails, tapping
the null-position element fails without dispatch, and tapping the live
element at (5, 6) succeeds after dispatching pointer-down, pointer-up and
click on node 0. -/
theorem tapElement_semantics_witness :
    handleCommand envW ⟨"i5", "tapElement", some ⟨none, none, none, some "nobody"⟩⟩
      = (respond "i5" "tapElement" false none (some "Element nobody not registered"), [])
    ∧ handleCommand envW ⟨"i6", "tapElement", some ⟨none, none, none, some "ghost"⟩⟩
      = (respond "i6" "tapElement" false none (some "Element ghost returned null position"), [])
    ∧ handleCommand envW ⟨"i7", "tapElement", some ⟨none, none, none, some "hero"⟩⟩
      = (respond "i7" "tapElement" true none none,
          [⟨0, "pointerdown", true, 5, 6⟩, ⟨0, "pointerup", true, 5, 6⟩,
           ⟨0, "click", true, 5, 6⟩]) :=
  ⟨(tapElement_semantics envW ⟨"i5", "tapElement", some ⟨none, none, none, some "nobody"⟩⟩
      rfl).1 rfl,
   (tapElement_semantics envW ⟨"i6", "tapElement", some ⟨none, none, none, some "ghost"⟩⟩
      rfl).2.1 rfl,
   (tapElement_semantics envW ⟨"i7", "tapElement", some ⟨none, none, none, some "hero"⟩⟩
      rfl).2.2 ⟨5, 6⟩ 0 rfl (by decide)⟩

/-- Claim C10: a `tapElement` for a registered element with a non-null
position whose point no visual node occupies still responds success while
dispatching no synthetic event at all. -/
theorem tapElement_no_target_success {Node : Type} (env : Env Node) (cmd : Cmd)
    (h : cmd.command = "tapElement") (p : Pos)
    (hl : optLookup (paramsPath cmd) env.elements = some (some p))
    (ht : env.dom.elementFromPoint p.x p.y = none) :
    handleCommand env cmd = (respond cmd.id cmd.command true none none, []) := by
  simp [handleCommand, h, hl, ht]

/-- Witness for C10: on `envW`, tapping the element registered at the
unoccupied position (7, 8) succeeds with no synthetic event dispatched. -/
theorem tapElement_no_target_success_witness :
    handleCommand envW ⟨"i8", "tapElement", some ⟨none, none, none, some "limbo"⟩⟩
      = (respond "i8" "tapElement" true none none, []) :=
  tapElement_no_target_success envW
    ⟨"i8", "tapElement", some ⟨none, none, none, some "limbo"⟩⟩ rfl ⟨7, 8⟩ rfl (by decide)

/-! ## Explicit tap notification (`notifyTapped`) -/

/-- Outbound unsolicited event `{type: "event", event, data}` as built by
`sendEvent`. -/
structure OutEvent where
  event : String
  data : JVal

/-- Embedding of `PlayGuardSDK.notifyTapped`: emits (through `sendEvent`)
exactly one `elementTapped` event with the supplied name and
`matchType: "explicit"`.  The method can read the SDK state (`env`) but
consults none of it — no position getter runs and the name need not be
registered. -/
def notifyTapped {Node : Type} (env : Env Node) (name : String) : List OutEvent :=
  [⟨"elementTapped", .obj [("element", .str name), ("matchType", .str "explicit")]⟩]

/-- Claim C9: for every element name, `notifyTapped` emits exactly one
`elementTapped` event whose data is `{element: name, matchType: "explicit"}`,
and its output is independent of the registry and platform state — it
performs no geometric computation, reads no element position and does not
require the name to be registered. -/
theorem notifyTapped_explicit {Node : Type} (env env' : Env Node) (name : String) :
    notifyTapped env name =
      [⟨"elementTapped", .obj [("element", .str name), ("matchType", .str "explicit")]⟩]
    ∧ notifyTapped env name = notifyTapped env' name :=
  ⟨rfl, rfl⟩

/-! ## Tap router: `onPointerDown` dual-strategy hit testing

The canvas branch of the source computes `Math.sqrt` of each squared
offset and compares those euclidean distances with the running best
(initially the 35-pixel threshold).  The square root is strictly monotone
on nonnegative reals, so comparing the squared distances against the
squared threshold `35 ^ 2` performs exactly the same comparisons; the
embedding tracks squared distances to stay inside exact rational
arithmetic (the bridge to the real euclidean distance is part of the
claim-C3 theorem).  The `dist` payload field of the canvas event — the
rounded square root — is the one field not carried over, being irrational
in general; no claim mentions it. -/

/-- Payload of an `elementTapped` event emitted by the tap router:
element name, match type, and the tap and element coordinates rounded to
the nearest integer pixel (`Math.round`). -/
structure TapEvent where
  element : String
  matchType : String
  tapX : ℤ
  tapY : ℤ
  elementX : ℤ
  elementY : ℤ
deriving DecidableEq

/-- Squared euclidean offset `(pos.x - clientX) ** 2 + (pos.y - clientY) ** 2`
from a candidate position to the tap point, with the squares written as
products so the kernel evaluates them on concrete rationals. -/
def distSq (p : Pos) (cx cy : ℚ) : ℚ := (p.x - cx) * (p.x - cx) + (p.y - cy) * (p.y - cy)

/-- The canvas-branch loop over the registered elements: keeps the current
best (name, position) and its squared distance, starting from the squared
35-pixel threshold; a candidate replaces the best exactly when its
distance is strictly smaller. -/
def canvasLoop (cx cy : ℚ) :
    List (String × Option Pos) → ℚ → Option (String × Pos) → Option (String × Pos)
  | [], _, best => best
  | (_, none) :: rest, bestSq, best => canvasLoop cx cy rest bestSq best
  | (n, some p) :: rest, bestSq, best =>
    if distSq p cx cy < bestSq then canvasLoop cx cy rest (distSq p cx cy) (some (n, p))
    else canvasLoop cx cy rest bestSq best

/-- The canvas branch: nearest candidate strictly within the 35-pixel
threshold, if any. -/
def canvasRoute (cx cy : ℚ) (els : List (String × Option Pos)) : Option (String × Pos) :=
  canvasLoop cx cy els (35 * 35) none

/-- The canvas-branch `elementTapped` payload for the selected element. -/
def mkCanvasEv (cx cy : ℚ) (r : String × Pos) : TapEvent :=
  ⟨r.1, "canvas", round cx, round cy, round r.2.x, round r.2.y⟩

/-- The DOM-branch `elementTapped` payload for a matched element. -/
def mkDomEv (cx cy : ℚ) (n : String) (p : Pos) : TapEvent :=
  ⟨n, "dom", round cx, round cy, round p.x, round p.y⟩

/-- The DOM-branch loop over the registered elements in registration
order: skip an element whose getter returns null, whose centre resolves to
no node, or whose centre resolves to a canvas; return the event for the
first element whose resolved node equals, contains or is contained by the
tapped node. -/
def domLoop {Node : Type} [DecidableEq Node] (dom : DomEnv Node) (tapped : Node)
    (cx cy : ℚ) : List (String × Option Pos) → Option TapEvent
  | [] => none
  | (_, none) :: rest => domLoop dom tapped cx cy rest
  | (n, some p) :: rest =>
    match dom.elementFromPoint p.x p.y with
    | none => domLoop dom tapped cx cy rest
    | some c =>
      if dom.isCanvas c then domLoop dom tapped cx cy rest
      else if c = tapped ∨ dom.contains c tapped = true ∨ dom.contains tapped c = true then
        some (mkDomEv cx cy n p)
      else domLoop dom tapped cx cy rest

/-- Embedding of `PlayGuardSDK.onPointerDown`: returns the emitted
`elementTapped` event, if any.  Nothing happens with no registered
element or when no node occupies the tap point; a non-canvas tapped node
selects the exact DOM hit-test, a canvas node the bounded-proximity
strategy. -/
def onPointerDown {Node : Type} [DecidableEq Node] (dom : DomEnv Node)
    (cx cy : ℚ) (els : List (String × Option Pos)) : Option TapEvent :=
  if els.isEmpty then none
  else
    match dom.elementFromPoint cx cy with
    | none => none
    | some tapped =>
      if dom.isCanvas tapped = false then domLoop dom tapped cx cy els
      else (canvasRoute cx cy els).map (mkCanvasEv cx cy)

theorem canvasLoop_some_ne_none (cx cy : ℚ) (l : List (String × Option Pos)) :
    ∀ (b : ℚ) (z : String × Pos), canvasLoop cx cy l b (some z) ≠ none := by
  induction l with
  | nil => intro b z; simp [canvasLoop]
  | cons e rest ih =>
    intro b z
    rcases e with ⟨n, _ | p⟩
    · exact ih b z
    · by_cases hlt : distSq p cx cy < b
      · simpa [canvasLoop, hlt] using ih (distSq p cx cy) (n, p)
      · simpa [canvasLoop, hlt] using ih b z

theorem canvasLoop_none_iff (cx cy : ℚ) (l : List (String × Option Pos)) :
    ∀ b : ℚ, (canvasLoop cx cy l b none = none ↔
      ∀ n p, (n, some p) ∈ l → b ≤ distSq p cx cy) := by
  induction l with
  | nil => intro b; simp [canvasLoop]
  | cons e rest ih =>
    intro b
    rcases e with ⟨n, _ | p⟩
    · rw [show canvasLoop cx cy ((n, none) :: rest) b none =
        canvasLoop cx cy rest b none from rfl, ih b]
      constructor
      · intro h m q hmq
        rcases List.mem_cons.mp hmq with heq | hmem
        · exact absurd heq (by simp)
        · exact h m q hmem
      · intro h m q hmem
        exact h m q (List.mem_cons_of_mem _ hmem)
    · by_cases hlt : distSq p cx cy < b
      · rw [show canvasLoop cx cy ((n, some p) :: rest) b none =
          canvasLoop cx cy rest (distSq p cx cy) (some (n, p)) from by
            simp [canvasLoop, hlt]]
        constructor
        · intro h
          exact absurd h (canvasLoop_some_ne_none cx cy rest _ _)
        · intro h
          exact absurd (h n p (List.mem_cons_self _ _)) (not_le.mpr hlt)
      · rw [show canvasLoop cx cy ((n, some p) :: rest) b none =
          canvasLoop cx cy rest b none from by simp [canvasLoop, hlt], ih b]
        constructor
        · intro h m q hmq
          rcases List.mem_cons.mp hmq with heq | hmem
          · injection heq with h1 h2
            injection h2 with h3
            subst h3
            exact not_lt.mp hlt
          · exact h m q hmem
        · intro h m q hmem
          exact h m q (List.mem_cons_of_mem _ hmem)

/-- Characterization of a successful canvas scan, generalized over the
accumulator: assuming the running best's squared distance is the running
bound, a scan returning `(n, p)` either returned the incoming best
untouched (no candidate beat the bound), or selected `(n, p)` from the
list: strictly within the bound, of minimal squared distance among the
candidates, and strictly closer than every earlier candidate (so the
first minimizer wins ties). -/
theorem canvasLoop_some_spec (cx cy : ℚ) (l : List (String × Option Pos)) :
    ∀ (b : ℚ) (best : Option (String × Pos)),
      (∀ m q, best = some (m, q) → distSq q cx cy = b) →
      ∀ n p, canvasLoop cx cy l b best = some (n, p) →
        (best = some (n, p) ∧ ∀ m q, (m, some q) ∈ l → b ≤ distSq q cx cy)
        ∨ ((n, some p) ∈ l ∧ distSq p cx cy < b
            ∧ (∀ m q, (m, some q) ∈ l → distSq p cx cy ≤ distSq q cx cy)
            ∧ ∃ i, ∃ hi : i < l.length, l.get ⟨i, hi⟩ = (n, some p)
                ∧ ∀ j (hj : j < l.length), j < i →
                    ∀ m q, l.get ⟨j, hj⟩ = (m, some q) →
                      distSq p cx cy < distSq q cx cy) := by
  induction l with
  | nil =>
    intro b best hbest n p hres
    left
    exact ⟨hres, by simp⟩
  | cons e rest ih =>
    intro b best hbest n p hres
    rcases e with ⟨n₀, _ | p₀⟩
    · -- the head's getter returned null: it is skipped
      have hres' : canvasLoop cx cy rest b best = some (n, p) := hres
      rcases ih b best hbest n p hres' with ⟨hb, hall⟩ |
        ⟨hmem, hlt, hmin, i, hi, hget, hfirst⟩
      · left
        refine ⟨hb, fun m q hmq => ?_⟩
        rcases List.mem_cons.mp hmq with heq | hmem2
        · exact absurd heq (by simp)
        · exact hall m q hmem2
      · right
        refine ⟨List.mem_cons_of_mem _ hmem, hlt, fun m q hmq => ?_,
          i + 1, Nat.succ_lt_succ hi, hget, fun j hj hji m q hgetj => ?_⟩
        · rcases List.mem_cons.mp hmq with heq | hmem2
          · exact absurd heq (by simp)
          · exact hmin m q hmem2
        · cases j with
          | zero => exact absurd hgetj (by simp)
          | succ j' =>
            exact hfirst j' (Nat.lt_of_succ_lt_succ hj) (Nat.lt_of_succ_lt_succ hji)
              m q hgetj
    · by_cases hlt0 : distSq p₀ cx cy < b
      · -- the head strictly beats the running bound and becomes the best
        have hres' : canvasLoop cx cy rest (distSq p₀ cx cy) (some (n₀, p₀)) =
            some (n, p) := by
          simpa [canvasLoop, hlt0] using hres
        have hbest' : ∀ m q, (some (n₀, p₀) : Option (String × Pos)) = some (m, q) →
            distSq q cx cy = distSq p₀ cx cy := by
          intro m q hmq
          injection hmq with h1
          injection h1 with h2 h3
          subst h3
          rfl
        rcases ih (distSq p₀ cx cy) (some (n₀, p₀)) hbest' n p hres' with ⟨hb, hall⟩ |
          ⟨hmem, hlt, hmin, i, hi, hget, hfirst⟩
        · -- the head survived the rest of the scan
          injection hb with hb1
          injection hb1 with hbn hbp
          subst hbn
          subst hbp
          right
          refine ⟨List.mem_cons_self _ _, hlt0, fun m q hmq => ?_,
            0, Nat.succ_pos _, rfl, fun j hj hji m q hgetj => absurd hji (Nat.not_lt_zero _)⟩
          rcases List.mem_cons.mp hmq with heq | hmem2
          · injection heq with h1 h2
            injection h2 with h3
            subst h3
            exact le_refl _
          · exact hall m q hmem2
        · -- some later candidate replaced the head
          right
          refine ⟨List.mem_cons_of_mem _ hmem, lt_trans hlt hlt0, fun m q hmq => ?_,
            i + 1, Nat.succ_lt_succ hi, hget, fun j hj hji m q hgetj => ?_⟩
          · rcases List.mem_cons.mp hmq with heq | hmem2
            · injection heq with h1 h2
              injection h2 with h3
              subst h3
              exact le_of_lt hlt
            · exact hmin m q hmem2
          · cases j with
            | zero =>
              injection hgetj with h1 h2
              injection h2 with h3
              subst h3
              exact hlt
            | succ j' =>
              exact hfirst j' (Nat.lt_of_succ_lt_succ hj) (Nat.lt_of_succ_lt_succ hji)
                m q hgetj
      · -- the head does not beat the running bound: skipped
        have hres' : canvasLoop cx cy rest b best = some (n, p) := by
          simpa [canvasLoop, hlt0] using hres
        rcases ih b best hbest n p hres' with ⟨hb, hall⟩ |
          ⟨hmem, hlt, hmin, i, hi, hget, hfirst⟩
        · left
          refine ⟨hb, fun m q hmq => ?_⟩
          rcases List.mem_cons.mp hmq with heq | hmem2
          · injection heq with h1 h2
            injection h2 with h3
            subst h3
            exact not_lt.mp hlt0
          · exact hall m q hmem2
        · right
          refine ⟨List.mem_cons_of_mem _ hmem, hlt, fun m q hmq => ?_,
            i + 1, Nat.succ_lt_succ hi, hget, fun j hj hji m q hgetj => ?_⟩
          · rcases List.mem_cons.mp hmq with heq | hmem2
            · injection heq with h1 h2
              injection h2 with h3
              subst h3
              exact le_of_lt (lt_of_lt_of_le hlt (not_lt.mp hlt0))
            · exact hmin m q hmem2
          · cases j with
            | zero =>
              injection hgetj with h1 h2
              injection h2 with h3
              subst h3
              exact lt_of_lt_of_le hlt (not_lt.mp hlt0)
            | succ j' =>
              exact hfirst j' (Nat.lt_of_succ_lt_succ hj) (Nat.lt_of_succ_lt_succ hji)
                m q hgetj

/-- Claim C3: in the canvas model (the tap lands on an opaque drawing
surface), the pointer-down handler emits an `elementTapped` event exactly
when some candidate (an element whose getter returned a position) lies at
euclidean distance strictly below 35 pixels of the tap — the squared form
`distSq < 35 * 35` is equivalent via the square-root bridge in the second
conjunct — and the selected element attains the minimum distance, ties
going to the first minimizer in registration order; with no candidate
strictly within the threshold (in particular when no element reports a
non-null position) nothing is emitted. -/
theorem onPointerDown_canvas_char {Node : Type} [DecidableEq Node] (dom : DomEnv Node)
    (cx cy : ℚ) (els : List (String × Option Pos)) (tapped : Node)
    (h1 : dom.elementFromPoint cx cy = some tapped)
    (h2 : dom.isCanvas tapped = true) :
    onPointerDown dom cx cy els = (canvasRoute cx cy els).map (mkCanvasEv cx cy)
    ∧ (∀ q : Pos, Real.sqrt ((distSq q cx cy : ℚ) : ℝ) < 35 ↔ distSq q cx cy < 35 * 35)
    ∧ (canvasRoute cx cy els = none ↔
        ∀ n p, (n, some p) ∈ els → 35 * 35 ≤ distSq p cx cy)
    ∧ ∀ n p, canvasRoute cx cy els = some (n, p) →
        (n, some p) ∈ els ∧ distSq p cx cy < 35 * 35
        ∧ (∀ m q, (m, some q) ∈ els → distSq p cx cy ≤ distSq q cx cy)
        ∧ ∃ i, ∃ hi : i < els.length, els.get ⟨i, hi⟩ = (n, some p)
            ∧ ∀ j (hj : j < els.length), j < i →
                ∀ m q, els.get ⟨j, hj⟩ = (m, some q) →
                  distSq p cx cy < distSq q cx cy := by
  refine ⟨?_, ?_, ?_, ?_⟩
  · by_cases he : els.isEmpty
    · obtain rfl : els = [] := by simpa [List.isEmpty_iff] using he
      simp [onPointerDown, canvasRoute, canvasLoop]
    · simp [onPointerDown, he, h1, h2]
  · intro q
    rw [Real.sqrt_lt' (by norm_num : (0 : ℝ) < 35), pow_two]
    constructor
    · intro h
      exact_mod_cast h
    · intro h
      exact_mod_cast h
  · exact canvasLoop_none_iff cx cy els (35 * 35)
  · intro n p hres
    rcases canvasLoop_some_spec cx cy els (35 * 35) none
        (fun m q h => absurd h (by simp)) n p hres with ⟨hb, _⟩ | hr
    · exact absurd hb (by simp)
    · exact hr

/-- Concrete canvas-game platform for the C3 witness: every screen point
resolves to the single canvas node 0. -/
def domC : DomEnv ℕ where
  elementFromPoint := fun _ _ => some 0
  isCanvas := fun _ => true
  contains := fun _ _ => false

/-- Concrete registered elements for the C3 witness: two candidates at
(100, 100) and (100, 140), both 20 pixels from the tap point (100, 120). -/
def elsC : List (String × Option Pos) :=
  [("btnA", some ⟨100, 100⟩), ("btnB", some ⟨100, 140⟩)]

attribute [local semireducible] Rat.add Rat.sub Rat.mul

/-- Witness for C3: tapping the canvas at (100, 120) between the two
candidates of `elsC` — an exact tie at 20 pixels, both within the
threshold — emits the event for the first-registered candidate; tapping
at (100, 180), 40 pixels from the nearest candidate, emits nothing.
Rational arithmetic is made kernel-reducible again for the evaluation. -/
theorem onPointerDown_canvas_char_witness :
    (domC.elementFromPoint 100 120 = some 0 ∧ domC.isCanvas 0 = true)
    ∧ onPointerDown domC 100 120 elsC = (canvasRoute 100 120 elsC).map (mkCanvasEv 100 120)
    ∧ canvasRoute 100 120 elsC = some ("btnA", ⟨100, 100⟩)
    ∧ onPointerDown domC 100 120 elsC = some ⟨"btnA", "canvas", 100, 120, 100, 100⟩
    ∧ onPointerDown domC 100 180 elsC = none :=
  ⟨⟨rfl, rfl⟩, (onPointerDown_canvas_char domC 100 120 elsC 0 rfl rfl).1,
   by decide, by decide, by decide⟩

/-- Whether one registered element matches the tapped node in the DOM
strategy: its getter returned a position, that position resolves to a
non-canvas node, and that node equals, contains or is contained by the
tapped node. -/
def domMatchB {Node : Type} [DecidableEq Node] (dom : DomEnv Node) (tapped : Node) :
    String × Option Pos → Bool
  | (_, none) => false
  | (_, some p) =>
    match dom.elementFromPoint p.x p.y with
    | none => false
    | some c =>
      if dom.isCanvas c then false
      else decide (c = tapped) || dom.contains c tapped || dom.contains tapped c

theorem domLoop_cons_match {Node : Type} [DecidableEq Node] (dom : DomEnv Node)
    (tapped : Node) (cx cy : ℚ) (n : String) (p : Pos)
    (rest : List (String × Option Pos))
    (hm : domMatchB dom tapped (n, some p) = true) :
    domLoop dom tapped cx cy ((n, some p) :: rest) = some (mkDomEv cx cy n p) := by
  rcases hc : dom.elementFromPoint p.x p.y with _ | c
  · simp [domMatchB, hc] at hm
  · by_cases hcan : dom.isCanvas c
    · simp [domMatchB, hc, hcan] at hm
    · have hrel : c = tapped ∨ dom.contains c tapped = true ∨
          dom.contains tapped c = true := by
        simpa [domMatchB, hc, hcan, Bool.or_eq_true, decide_eq_true_eq,
          or_assoc] using hm
      simp [domLoop, hc, hcan, hrel]

theorem domLoop_cons_skip {Node : Type} [DecidableEq Node] (dom : DomEnv Node)
    (tapped : Node) (cx cy : ℚ) (e : String × Option Pos)
    (rest : List (String × Option Pos))
    (hm : domMatchB dom tapped e = false) :
    domLoop dom tapped cx cy (e :: rest) = domLoop dom tapped cx cy rest := by
  rcases e with ⟨n, _ | p⟩
  · rfl
  · rcases hc : dom.elementFromPoint p.x p.y with _ | c
    · simp [domLoop, hc]
    · by_cases hcan : dom.isCanvas c
      · simp [domLoop, hc, hcan]
      · have hrel : ¬(c = tapped ∨ dom.contains c tapped = true ∨
            dom.contains tapped c = true) := by
          simpa [domMatchB, hc, hcan, not_or, Bool.or_eq_true,
            decide_eq_true_eq, and_assoc] using hm
        simp [domLoop, hc, hcan, hrel]

theorem domLoop_none_iff {Node : Type} [DecidableEq Node] (dom : DomEnv Node)
    (tapped : Node) (cx cy : ℚ) (l : List (String × Option Pos)) :
    domLoop dom tapped cx cy l = none ↔
      ∀ e ∈ l, domMatchB dom tapped e = false := by
  induction l with
  | nil => simp [domLoop]
  | cons e rest ih =>
    by_cases hm : domMatchB dom tapped e = true
    · rcases e with ⟨n, _ | p⟩
      · exact absurd hm (by simp [domMatchB])
      · rw [domLoop_cons_match dom tapped cx cy n p rest hm]
        simp [hm]
    · have hmf : domMatchB dom tapped e = false := by
        revert hm; cases domMatchB dom tapped e <;> simp
      rw [domLoop_cons_skip dom tapped cx cy e rest hmf, ih]
      constructor
      · intro h e' he'
        rcases List.mem_cons.mp he' with rfl | hmem
        · exact hmf
        · exact h e' hmem
      · intro h e' he'
        exact h e' (List.mem_cons_of_mem _ he')

theorem domLoop_some_iff {Node : Type} [DecidableEq Node] (dom : DomEnv Node)
    (tapped : Node) (cx cy : ℚ) (l : List (String × Option Pos)) :
    ∀ ev, domLoop dom tapped cx cy l = some ev ↔
      ∃ i, ∃ hi : i < l.length, ∃ p, (l.get ⟨i, hi⟩).2 = some p
        ∧ domMatchB dom tapped (l.get ⟨i, hi⟩) = true
        ∧ ev = mkDomEv cx cy (l.get ⟨i, hi⟩).1 p
        ∧ ∀ j (hj : j < l.length), j < i →
            domMatchB dom tapped (l.get ⟨j, hj⟩) = false := by
  induction l with
  | nil => intro ev; simp [domLoop]
  | cons e rest ih =>
    intro ev
    by_cases hm : domMatchB dom tapped e = true
    · rcases e with ⟨n, _ | p⟩
      · exact absurd hm (by simp [domMatchB])
      · rw [domLoop_cons_match dom tapped cx cy n p rest hm]
        constructor
        · intro hev
          injection hev with hev
          exact ⟨0, Nat.succ_pos _, p, rfl, hm, hev.symm,
            fun j hj hji => absurd hji (Nat.not_lt_zero _)⟩
        · rintro ⟨i, hi, p', hp', hmi, hev, hfirst⟩
          cases i with
          | zero =>
            injection hp' with hp'
            subst hp'
            exact congrArg some hev.symm
          | succ i' =>
            exact absurd hm (by simpa using hfirst 0 (Nat.succ_pos _) (Nat.succ_pos _))
    · have hmf : domMatchB dom tapped e = false := by
        revert hm; cases domMatchB dom tapped e <;> simp
      rw [domLoop_cons_skip dom tapped cx cy e rest hmf, ih ev]
      constructor
      · rintro ⟨i, hi, p', hp', hmi, hev, hfirst⟩
        refine ⟨i + 1, Nat.succ_lt_succ hi, p', hp', hmi, hev,
          fun j hj hji => ?_⟩
        cases j with
        | zero => exact hmf
        | succ j' =>
          exact hfirst j' (Nat.lt_of_succ_lt_succ hj) (Nat.lt_of_succ_lt_succ hji)
      · rintro ⟨i, hi, p', hp', hmi, hev, hfirst⟩
        cases i with
        | zero => exact absurd hmi (by simp [hmf])
        | succ i' =>
          exact ⟨i', Nat.lt_of_succ_lt_succ hi, p', hp', hmi, hev,
            fun j hj hji => hfirst (j + 1) (Nat.succ_lt_succ hj) (Nat.succ_lt_succ hji)⟩

/-- Claim C4: in the DOM model (the tap resolves to a non-canvas node),
the pointer-down handler runs the exact hit-test scan: elements whose
getter returns null, whose position resolves to no node or to a canvas
node are skipped (`domMatchB` is false for them, by its three guards);
among the remaining elements, the first — in registration order — whose
resolved node equals, contains or is contained by the tapped node
produces exactly one `elementTapped` event of match type dom with
integer-rounded coordinates, every earlier element being a non-match; and
when no element matches no event is emitted.  The `Option` result makes
at most one event per pointer-down structural. -/
theorem onPointerDown_dom_char {Node : Type} [DecidableEq Node] (dom : DomEnv Node)
    (cx cy : ℚ) (els : List (String × Option Pos)) (tapped : Node)
    (h1 : dom.elementFromPoint cx cy = some tapped)
    (h2 : dom.isCanvas tapped = false) :
    onPointerDown dom cx cy els = domLoop dom tapped cx cy els
    ∧ (∀ n, domMatchB dom tapped (n, none) = false)
    ∧ (∀ n p, domMatchB dom tapped (n, some p) = true ↔
        ∃ c, dom.elementFromPoint p.x p.y = some c ∧ dom.isCanvas c = false
          ∧ (c = tapped ∨ dom.contains c tapped = true ∨ dom.contains tapped c = true))
    ∧ (domLoop dom tapped cx cy els = none ↔
        ∀ e ∈ els, domMatchB dom tapped e = false)
    ∧ ∀ ev, domLoop dom tapped cx cy els = some ev ↔
        ∃ i, ∃ hi : i < els.length, ∃ p, (els.get ⟨i, hi⟩).2 = some p
          ∧ domMatchB dom tapped (els.get ⟨i, hi⟩) = true
          ∧ ev = mkDomEv cx cy (els.get ⟨i, hi⟩).1 p
          ∧ ∀ j (hj : j < els.length), j < i →
              domMatchB dom tapped (els.get ⟨j, hj⟩) = false := by
  refine ⟨?_, fun n => rfl, fun n p => ?_, domLoop_none_iff dom tapped cx cy els,
    domLoop_some_iff dom tapped cx cy els⟩
  · by_cases he : els.isEmpty
    · obtain rfl : els = [] := by simpa [List.isEmpty_iff] using he
      simp [onPointerDown, domLoop]
    · simp [onPointerDown, he, h1, h2]
  · simp only [domMatchB]
    rcases hc : dom.elementFromPoint p.x p.y with _ | c
    · simp
    · by_cases hcan : dom.isCanvas c
      · simp [hcan]
      · simp [hcan, Bool.or_eq_true, decide_eq_true_eq, or_assoc]

/-- Concrete DOM-game platform for the C4 witness over natural-number
nodes: the tap point (10, 10) resolves to node 5, the position (1, 1) to
the canvas node 7, the position (2, 2) to node 8 which contains node 5,
and the position (3, 3) to node 9, unrelated to node 5. -/
def domD : DomEnv ℕ where
  elementFromPoint := fun x y =>
    if x = 10 then some 5 else if x = 1 then some 7
    else if x = 2 then some 8 else if x = 3 then some 9 else none
  isCanvas := fun c => c = 7
  contains := fun a b => a = 8 && b = 5
/-- Concrete registered elements for the C4 witness: a null-position
element, an element resolving to a canvas node, a matching element and a
later element that would also be examined but is never reached. -/
def elsD : List (String × Option Pos) :=
  [("nullPos", none), ("onCanvas", some ⟨1, 1⟩), ("hit", some ⟨2, 2⟩),
   ("unreached", some ⟨3, 3⟩)]

/-- Witness for C4: on `domD`, tapping (10, 10) — node 5, not a canvas —
skips the null-position and canvas-resolving elements and emits the dom
event for the first containing element, with rounded coordinates. -/
theorem onPointerDown_dom_char_witness :
    (domD.elementFromPoint 10 10 = some 5 ∧ domD.isCanvas 5 = false)
    ∧ onPointerDown domD 10 10 elsD = domLoop domD 5 10 10 elsD
    ∧ domLoop domD 5 10 10 elsD = some ⟨"hit", "dom", 10, 10, 2, 2⟩
    ∧ onPointerDown domD 10 10 elsD = some ⟨"hit", "dom", 10, 10, 2, 2⟩ :=
  ⟨⟨rfl, rfl⟩, (onPointerDown_dom_char domD 10 10 elsD 5 rfl rfl).1,
   by decide, by decide⟩

/-- Claim C5: `destroy()` is idempotent and terminal — after any call to
`destroy()`, under every subsequent sequence of transitions, the pending
reconnect timer (if any) stays cancelled and no new one is ever scheduled,
the `destroyed` flag stays set, no socket ever exists again (so no
reconnect attempt is performed, even when the reconnect delay elapses or a
close event arrives), `connect()` is a no-op, and `send()` writes nothing
to any socket. -/
theorem destroy_terminal_idempotent (s : WS) (acts : List WSAction) (msg : String) :
    (s.destroy).destroy = s.destroy
    ∧ ((s.destroy).run acts).destroyed = true
    ∧ ((s.destroy).run acts).timerSet = false
    ∧ ((s.destroy).run acts).ws = none
    ∧ ((s.destroy).run acts).connect = (s.destroy).run acts
    ∧ ((s.destroy).run acts).send msg = none := by
  obtain ⟨h1, h2, h3, h4⟩ := WS.dead_run (WS.dead_destroy s) acts
  refine ⟨rfl, h1, h2, h3, ?_, ?_⟩
  · simp [WS.connect, h1]
  · simp [WS.send, h3]

/-- Claim C6: the `onmessage` handler splits each raw frame on newline
boundaries and parses every non-blank line independently; the delivered
messages are exactly the successfully parsed non-blank lines in order, and
a line that fails to parse is dropped without affecting any other line of
the same frame (including the lines after it). -/
theorem onmessage_line_framing {α : Type} (parse : List Char → Option α) (data : List Char) :
    handleFrame parse data =
      ((splitOnNl data).filter (fun l => !isBlankLine l)).filterMap parse
    ∧ ∀ bad rest, parse bad = none →
        processLines parse (bad :: rest) = processLines parse rest := by
  refine ⟨processLines_eq_filterMap parse _, ?_⟩
  intro bad rest hbad
  by_cases h : isBlankLine bad <;> simp [processLines, h, hbad]

/-- Toy single-line parser used to witness the framing behaviour: accepts
the two-character lines 12 and 34 and rejects everything else. -/
def toyParse : List Char → Option ℕ :=
  fun l => if l = ['1', '2'] then some 12 else if l = ['3', '4'] then some 34 else none

/-- Witness for C6: the malformed middle line of a three-line frame is
dropped while the well-formed lines before and after it are delivered. -/
theorem onmessage_line_framing_witness :
    (toyParse ['x', 'x'] = none
      ∧ processLines toyParse (['x', 'x'] :: [['3', '4']]) =
          processLines toyParse [['3', '4']])
    ∧ handleFrame toyParse "12\nxx\n34".data = [12, 34] :=
  ⟨⟨by decide,
    (onmessage_line_framing toyParse "12\nxx\n34".data).2 ['x', 'x'] [['3', '4']]
      (by decide)⟩,
   by decide⟩

end PlayGuard
